import Mathlib

/-!
Verification of the accessibility-bridge core of `wechat_bridge.py`
(repository `sidecar_wechat`).

The Python source is embedded shallowly: UI-automation elements become an
inductive tree type, the queue-based descendant walk becomes a well-founded
recursive function over an explicit work queue, the regular expressions of
the source are expanded into explicit character scanners, and effectful
helpers (HTTP posting, the send dispatcher) become pure functions over
oracles describing the outcomes of their external calls.
-/

/-- Whitespace recognised by the embedding: space, tab, CR, LF.  These are
the whitespace forms that occur in WeChat display names; Python `str.strip`
and the regex class `\s` accept them (plus rarer Unicode spaces that never
appear in the strings this program handles). -/
def isSpaceChar (c : Char) : Bool :=
  c = ' ' || c = '\t' || c = '\n' || c = '\r'

/-- An ASCII decimal digit, the inhabitants of the regex class `\d` that
matter here. -/
def isDigitChar (c : Char) : Bool := '0' ≤ c && c ≤ '9'

/-- Shallow model of a UI-automation element: `name` models the `Name`
property (`getattr(x, "Name", "") or ""`), `className` the `ClassName`
property, `uiId` the value of `GetRuntimeId()` (`none` when the call raises
and the source falls back to `None`), and `children` the list returned by
`GetChildren()` (the source replaces a raising `GetChildren()` with `[]`,
so a plain list is a faithful model). -/
inductive UINode where
  | mk (name : String) (className : String) (uiId : Option String)
      (children : List UINode)

def UINode.name : UINode → String
  | .mk n _ _ _ => n

def UINode.className : UINode → String
  | .mk _ c _ _ => c

def UINode.uiId : UINode → Option String
  | .mk _ _ u _ => u

def UINode.children : UINode → List UINode
  | .mk _ _ _ cs => cs

/-- Termination measure helper: an upper bound on the work remaining for one
queue entry whose depth budget is `k` levels. -/
def UINode.weight : Nat → UINode → Nat
  | 0, _ => 0
  | k + 1, n => 1 + n.children.length + (n.children.map (UINode.weight k)).sum

/-- Total remaining work of a traversal queue relative to the depth bound. -/
def queueWeight (maxDepth : Int) (q : List (UINode × Int)) : Nat :=
  (q.map (fun e => UINode.weight (maxDepth - e.2).toNat e.1)).sum

theorem queueWeight_cons_of_ge (maxDepth d : Int) (n : UINode)
    (q : List (UINode × Int)) (h : maxDepth ≤ d) :
    queueWeight maxDepth ((n, d) :: q) = queueWeight maxDepth q := by
  have h0 : (maxDepth - d).toNat = 0 := by omega
  simp [queueWeight, h0, UINode.weight]

theorem queueWeight_append_level (maxDepth d : Int) (ns : List UINode)
    (q : List (UINode × Int)) :
    queueWeight maxDepth (q ++ ns.map (fun c => (c, d))) =
      queueWeight maxDepth q + (ns.map (UINode.weight (maxDepth - d).toNat)).sum := by
  simp [queueWeight, List.map_map, Function.comp_def]

theorem queueWeight_step (maxDepth d : Int) (n : UINode)
    (q : List (UINode × Int)) (h : d < maxDepth) :
    queueWeight maxDepth (q ++ n.children.map (fun c => (c, d + 1))) +
        (q ++ n.children.map (fun c => (c, d + 1))).length <
      queueWeight maxDepth ((n, d) :: q) + ((n, d) :: q).length := by
  have hk : (maxDepth - d).toNat = (maxDepth - (d + 1)).toNat + 1 := by omega
  rw [queueWeight_append_level]
  have hcons : queueWeight maxDepth ((n, d) :: q) =
      UINode.weight (maxDepth - d).toNat n + queueWeight maxDepth q := by
    simp [queueWeight]
  rw [hcons, hk]
  simp [UINode.weight, List.length_append]
  omega

/-- Queue-based bounded breadth-first walk, translated from the loop body of
`_iter_descendants` (wechat_bridge.py 432-444): pop the front entry, skip it
when its depth has reached the bound, otherwise yield every child (in order)
and push each child with depth one larger.  The generator's yields are
collected into the returned list. -/
def iterAux (maxDepth : Int) : List (UINode × Int) → List UINode
  | [] => []
  | (n, d) :: q =>
    if maxDepth ≤ d then
      iterAux maxDepth q
    else
      n.children ++ iterAux maxDepth (q ++ n.children.map (fun c => (c, d + 1)))
termination_by q => queueWeight maxDepth q + q.length
decreasing_by
  · rename_i h
    rw [queueWeight_cons_of_ge maxDepth d n q h]
    simp
  · rename_i h
    exact queueWeight_step maxDepth d n q (by omega)

/-- Translation of `_iter_descendants(root, max_depth)` (wechat_bridge.py
429-444): the `max_depth <= 0` early return yields nothing, otherwise the
walk starts from the FIFO queue `[(root, 0)]`. -/
def iterDescendants (root : UINode) (maxDepth : Int) : List UINode :=
  if maxDepth ≤ 0 then [] else iterAux maxDepth [(root, 0)]

/-- Concatenation of the children lists of a frontier, in order: the next
breadth-first level. -/
def childrenJoin (ns : List UINode) : List UINode :=
  (ns.map UINode.children).flatten

/-- Level-by-level breadth-first enumeration: the next `k` levels below the
frontier `ns`, concatenated level by level, each level left to right.  This
is the specification-side description of a depth-bounded breadth-first
traversal, used to characterise the queue-based walk. -/
def bfsLevels : Nat → List UINode → List UINode
  | 0, _ => []
  | k + 1, ns => childrenJoin ns ++ bfsLevels k (childrenJoin ns)

/-- All descendants of `root` within depth `k`, in breadth-first order. -/
def bfsUpTo (root : UINode) (k : Nat) : List UINode := bfsLevels k [root]

theorem iterAux_deep (maxDepth d : Int) (h : maxDepth ≤ d) (ns : List UINode) :
    iterAux maxDepth (ns.map (fun n => (n, d))) = [] := by
  induction ns with
  | nil => simp [iterAux]
  | cons n ns ih =>
      simp only [List.map_cons]
      rw [iterAux]
      simp [h, ih]

theorem iterAux_two_levels (maxDepth d : Int) (h : d < maxDepth)
    (ns : List UINode) : ∀ ms : List UINode,
    iterAux maxDepth (ns.map (fun n => (n, d)) ++ ms.map (fun n => (n, d + 1))) =
      childrenJoin ns ++
        iterAux maxDepth ((ms ++ childrenJoin ns).map (fun n => (n, d + 1))) := by
  induction ns with
  | nil => intro ms; simp [childrenJoin]
  | cons n ns ih =>
      intro ms
      simp only [List.map_cons, List.cons_append]
      rw [iterAux]
      have hnot : ¬ maxDepth ≤ d := by omega
      simp only [hnot, if_false]
      have hq : ns.map (fun n => (n, d)) ++ ms.map (fun n => (n, d + 1)) ++
            n.children.map (fun c => (c, d + 1)) =
          ns.map (fun n => (n, d)) ++ (ms ++ n.children).map (fun n => (n, d + 1)) := by
        simp [List.map_append, List.append_assoc]
      rw [hq, ih (ms ++ n.children)]
      have hcj : childrenJoin (n :: ns) = n.children ++ childrenJoin ns := by
        simp [childrenJoin]
      rw [hcj]
      simp [List.append_assoc]

theorem iterAux_eq_bfsLevels (maxDepth : Int) :
    ∀ (k : Nat) (ns : List UINode) (d : Int), (maxDepth - d).toNat = k →
    iterAux maxDepth (ns.map (fun n => (n, d))) = bfsLevels k ns := by
  intro k
  induction k with
  | zero =>
      intro ns d hk
      have : maxDepth ≤ d := by omega
      rw [iterAux_deep maxDepth d this ns]
      simp [bfsLevels]
  | succ k ih =>
      intro ns d hk
      have hd : d < maxDepth := by omega
      have h0 := iterAux_two_levels maxDepth d hd ns []
      simp only [List.map_nil, List.nil_append, List.append_nil] at h0
      rw [h0]
      have hk' : (maxDepth - (d + 1)).toNat = k := by omega
      rw [ih (childrenJoin ns) (d + 1) hk']
      simp [bfsLevels]

/-- Characterisation of the queue-based walk as the level-by-level
breadth-first enumeration; on a nonpositive bound `Int.toNat` is `0` and
both sides are empty. -/
theorem iterDescendants_eq_bfsUpTo (root : UINode) (maxDepth : Int) :
    iterDescendants root maxDepth = bfsUpTo root maxDepth.toNat := by
  unfold iterDescendants bfsUpTo
  by_cases h : maxDepth ≤ 0
  · have h0 : maxDepth.toNat = 0 := by omega
    simp [h, h0, bfsLevels]
  · simp only [h, if_false]
    have := iterAux_eq_bfsLevels maxDepth maxDepth.toNat [root] 0 (by omega)
    simpa using this

/-- Python `str.strip()` on a character list: whitespace dropped at both
ends. -/
def stripList (cs : List Char) : List Char :=
  ((cs.dropWhile isSpaceChar).reverse.dropWhile isSpaceChar).reverse

/-- Python `str.strip()` on a string. -/
def pyStrip (s : String) : String := String.mk (stripList s.data)

/-- Replacement of every maximal whitespace run by a single space, the
effect of `re.sub(r"\s+", " ", name)`; `prevWs` records whether the
previously consumed character belonged to a run replaced already. -/
def collapseWsAux : Bool → List Char → List Char
  | _, [] => []
  | prevWs, c :: cs =>
    if isSpaceChar c then
      if prevWs then collapseWsAux true cs else ' ' :: collapseWsAux true cs
    else c :: collapseWsAux false cs

/-- Whitespace-run collapse of a whole list. -/
def collapseWs (cs : List Char) : List Char := collapseWsAux false cs

/-- Model of Python `str.splitlines()` restricted to the terminators LF, CR
and CRLF (the ones occurring in UI display names); a trailing terminator
produces no trailing empty line. -/
def splitlinesAux : List Char → List Char → List (List Char)
  | [], [] => []
  | [], acc => [acc.reverse]
  | '\r' :: '\n' :: cs, acc => acc.reverse :: splitlinesAux cs []
  | '\r' :: cs, acc => acc.reverse :: splitlinesAux cs []
  | '\n' :: cs, acc => acc.reverse :: splitlinesAux cs []
  | c :: cs, acc => splitlinesAux cs (c :: acc)

/-- Line split of a character list. -/
def splitlines (cs : List Char) : List (List Char) := splitlinesAux cs []

/-- Match of a whole character list against `\d+\s*条新消息`: one or more
digits, optional whitespace, then the literal 条新消息. -/
def numNewMsgSuffix (cs : List Char) : Bool :=
  let ds := cs.takeWhile isDigitChar
  let rest := (cs.dropWhile isDigitChar).dropWhile isSpaceChar
  decide (ds ≠ []) && rest == "条新消息".data

/-- One application of `re.sub(r"(?:\d+\s*条新消息|未读)$", "", name)`:
find the leftmost position whose suffix (anchored at the end of the string)
matches an alternative and cut the string there; keep the string when no
position matches. -/
def stripUnreadSuffix : List Char → List Char
  | [] => []
  | c :: cs =>
    if numNewMsgSuffix (c :: cs) || (c :: cs) == "未读".data then []
    else c :: stripUnreadSuffix cs

/-- Containment of `pat` as a contiguous substring, Python's `pat in s`. -/
def substrListAux (pat : List Char) : List Char → Bool
  | [] => pat.isPrefixOf []
  | c :: cs => pat.isPrefixOf (c :: cs) || substrListAux pat cs

/-- Existence of a digit immediately followed by the literal 条新消息, the
substring search part `\d+条新消息` of `re.search(r"(\d+条新消息|未读)", name)`. -/
def searchNumNewMsg : List Char → Bool
  | [] => false
  | c :: cs => (isDigitChar c && "条新消息".data.isPrefixOf cs) || searchNumNewMsg cs

/-- Full model of `re.search(r"(\d+条新消息|未读)", name)` as a Boolean. -/
def containsUnreadMark (s : String) : Bool :=
  searchNumNewMsg s.data || substrListAux "未读".data s.data

/-- Model of `re.fullmatch(r"\d+", t)` as a Boolean: non-empty and all
digits. -/
def isAllDigits (cs : List Char) : Bool := decide (cs ≠ []) && cs.all isDigitChar

/-- List comprehension `[part.strip() for part in name.splitlines() if part.strip()]`
of the source: the stripped non-blank lines of a name. -/
def nonblankParts (cs : List Char) : List (List Char) :=
  ((splitlines cs).map stripList).filter (fun p => !p.isEmpty)

/-- Translation of `WeChatUI._normalize_contact_name` (wechat_bridge.py
455-466): empty and all-whitespace names normalise to the empty string;
otherwise the name is stripped, reduced to its first non-blank line,
whitespace runs are collapsed to single spaces, and one trailing
`\d+\s*条新消息` or `未读` suffix is removed, stripping again after each
rewrite. -/
def firstPart (cs : List Char) : List Char :=
  match nonblankParts cs with
  | [] => cs
  | p :: _ => p

def normalizeTail (cs : List Char) : List Char :=
  stripList (stripUnreadSuffix (stripList (collapseWs cs)))

def normalize_contact_name (s : String) : String :=
  if stripList s.data = [] then ""
  else String.mk (normalizeTail (firstPart (stripList s.data)))

/-- Translation of `WeChatUI._is_session_item_unread` (wechat_bridge.py
845-868): the item's own name is tested only with
`re.search(r"(\d+条新消息|未读)", name)`; descendant names within depth 5
are positive when non-empty and purely numeric after stripping, or when they
contain 条新消息 or 未读. -/
def is_session_item_unread (item : UINode) : Bool :=
  if containsUnreadMark item.name then true
  else
    (iterDescendants item 5).any fun ctrl =>
      ctrl.name != "" &&
        (isAllDigits (stripList ctrl.name.data) ||
         substrListAux "条新消息".data ctrl.name.data ||
         substrListAux "未读".data ctrl.name.data)

/-- Modelled from the claim's words (C1), for comparison with the source
classifier: an unread test in which the item's OWN display name is also
positive when purely numeric or containing a marker, uniformly with
descendant names. -/
def unreadSpecClaimC1 (item : UINode) : Bool :=
  (item :: bfsUpTo item 5).any fun ctrl =>
    isAllDigits (stripList ctrl.name.data) ||
    substrListAux "条新消息".data ctrl.name.data ||
    substrListAux "未读".data ctrl.name.data

/-- Modelled from the claim's words (C6), for comparison with the source:
normalisation that collapses internal whitespace of the whole stripped name
and strips exactly one trailing unread suffix, without discarding the lines
after the first one. -/
def normalizeSpecClaimC6 (s : String) : String :=
  String.mk (stripList (stripUnreadSuffix (stripList (collapseWs (stripList s.data)))))

example : normalize_contact_name "Alice\n3条新消息" = "Alice" := by decide
example : normalize_contact_name "Alice\nhello\n3条新消息" = "Alice" := by decide
example : normalizeSpecClaimC6 "Alice\nhello\n3条新消息" = "Alice hello" := by decide
example : normalize_contact_name "A  B 12条新消息" = "A B" := by decide
example : normalize_contact_name "Bob未读" = "Bob" := by decide

theorem unread_classifier_bfs (item : UINode) :
    is_session_item_unread item =
      (containsUnreadMark item.name ||
        (bfsUpTo item 5).any fun ctrl =>
          ctrl.name != "" &&
            (isAllDigits (stripList ctrl.name.data) ||
             substrListAux "条新消息".data ctrl.name.data ||
             substrListAux "未读".data ctrl.name.data)) := by
  unfold is_session_item_unread
  rw [iterDescendants_eq_bfsUpTo]
  by_cases h : containsUnreadMark item.name <;> simp [h]

/-- Claim C1 (counterexample): the claim makes a purely numeric display name
on the item ITSELF a positive unread signal, but the source only runs the
`\d+条新消息|未读` search on the item's own name; a childless session item
named `"5"` is classified as not unread although the claim-side predicate is
positive on it. -/
theorem c1_counterexample :
    is_session_item_unread (UINode.mk "5" "" none []) = false ∧
    unreadSpecClaimC1 (UINode.mk "5" "" none []) = true := by
  constructor
  · rw [unread_classifier_bfs]
    decide
  · decide

/-- Claim C1 (amended): the classifier returns true exactly when the item's
own name contains 未读 or a digit followed by 条新消息, or some descendant
within depth 5 has a non-empty name that is purely numeric after stripping
or contains 条新消息 or 未读; a purely numeric OWN name alone does not
trigger it.  The descendant walk is the depth-5 breadth-first enumeration. -/
theorem c1_theorem :
    (∀ item : UINode,
      is_session_item_unread item =
        (containsUnreadMark item.name ||
          (bfsUpTo item 5).any fun ctrl =>
            ctrl.name != "" &&
              (isAllDigits (stripList ctrl.name.data) ||
               substrListAux "条新消息".data ctrl.name.data ||
               substrListAux "未读".data ctrl.name.data))) ∧
    is_session_item_unread (UINode.mk "张三 3条新消息" "" none []) = true ∧
    is_session_item_unread
      (UINode.mk "Bob" "" none [UINode.mk "" "" none [UINode.mk "7" "" none []]]) = true ∧
    is_session_item_unread (UINode.mk "Bob" "" none [UINode.mk "hello" "" none []]) = false := by
  refine ⟨unread_classifier_bfs, ?_, ?_, ?_⟩
  · rw [unread_classifier_bfs]; decide
  · rw [unread_classifier_bfs]; decide
  · rw [unread_classifier_bfs]; decide

/-- Claim C6 (counterexample): on a name whose unread suffix sits after a
SECOND content line, normalisation does not merely strip the suffix and
collapse whitespace — it discards every line after the first.  The
claim-side normalisation of `"Alice\nhello\n3条新消息"` is `"Alice hello"`,
the source produces `"Alice"`. -/
theorem c6_counterexample :
    normalize_contact_name "Alice\nhello\n3条新消息" = "Alice" ∧
    normalizeSpecClaimC6 "Alice\nhello\n3条新消息" = "Alice hello" := by
  exact ⟨by decide, by decide⟩

theorem stripList_eq_rdrop (cs : List Char) :
    stripList cs = (cs.dropWhile isSpaceChar).rdropWhile isSpaceChar := rfl

theorem dropWhile_eq_self_of_strip_eq {a : List Char} (ha : stripList a = a) :
    a.dropWhile isSpaceChar = a := by
  have h1 : a <+: a.dropWhile isSpaceChar := by
    conv_lhs => rw [← ha]
    rw [stripList_eq_rdrop]
    exact List.rdropWhile_prefix _ _
  have h2 : a.dropWhile isSpaceChar <:+ a := List.dropWhile_suffix _
  exact h2.eq_of_length (le_antisymm h2.length_le h1.length_le)

theorem rdropWhile_eq_self_of_strip_eq {a : List Char} (ha : stripList a = a) :
    a.rdropWhile isSpaceChar = a := by
  have hd := dropWhile_eq_self_of_strip_eq ha
  have h := ha
  rw [stripList_eq_rdrop, hd] at h
  exact h

theorem reverse_dropWhile_eq_self_of_strip_eq {a : List Char} (ha : stripList a = a) :
    a.reverse.dropWhile isSpaceChar = a.reverse := by
  have hr := rdropWhile_eq_self_of_strip_eq ha
  unfold List.rdropWhile at hr
  have := congrArg List.reverse hr
  simpa using this

theorem head_not_space_of_strip_eq {c : Char} {t : List Char}
    (ha : stripList (c :: t) = c :: t) : ¬ (isSpaceChar c = true) := by
  have hd := dropWhile_eq_self_of_strip_eq ha
  rw [List.dropWhile_cons] at hd
  by_cases h : isSpaceChar c = true
  · rw [if_pos h] at hd
    have hlen := congrArg List.length hd
    have hle := (List.dropWhile_suffix (l := t) isSpaceChar).length_le
    simp at hlen
    omega
  · exact h

theorem dropWhile_append_of_nil {α : Type} {p : α → Bool} {l₁ : List α}
    (h : l₁.dropWhile p = []) (l₂ : List α) :
    (l₁ ++ l₂).dropWhile p = l₂.dropWhile p := by
  induction l₁ with
  | nil => simp
  | cons c t ih =>
      rw [List.dropWhile_cons] at h
      by_cases hc : p c = true
      · rw [if_pos hc] at h
        rw [List.cons_append, List.dropWhile_cons, if_pos hc]
        exact ih h
      · rw [if_neg hc] at h
        exact absurd h (by simp)

theorem dropWhile_append_of_ne {α : Type} {p : α → Bool} {l₁ : List α}
    (h : l₁.dropWhile p ≠ []) (l₂ : List α) :
    (l₁ ++ l₂).dropWhile p = l₁.dropWhile p ++ l₂ := by
  induction l₁ with
  | nil => simp at h
  | cons c t ih =>
      by_cases hc : p c = true
      · rw [List.dropWhile_cons, if_pos hc] at h
        rw [List.cons_append, List.dropWhile_cons, if_pos hc,
          List.dropWhile_cons, if_pos hc]
        exact ih h
      · rw [List.cons_append, List.dropWhile_cons, if_neg hc,
          List.dropWhile_cons, if_neg hc, List.cons_append]

theorem splitlinesAux_lf (cs acc : List Char) :
    splitlinesAux ('\n' :: cs) acc = acc.reverse :: splitlinesAux cs [] := rfl

theorem splitlinesAux_other (c : Char) (cs acc : List Char)
    (h1 : c ≠ '\n') (h2 : c ≠ '\r') :
    splitlinesAux (c :: cs) acc = splitlinesAux cs (c :: acc) := by
  rw [splitlinesAux.eq_def]
  split <;> simp_all

theorem splitlinesAux_noTerm (u : List Char)
    (hu : ∀ c ∈ u, c ≠ '\n' ∧ c ≠ '\r') :
    ∀ acc : List Char, splitlinesAux u acc =
      if acc = [] ∧ u = [] then [] else [acc.reverse ++ u] := by
  induction u with
  | nil =>
      intro acc
      cases acc <;> simp [splitlinesAux]
  | cons c u ih =>
      intro acc
      have hc := hu c (by simp)
      rw [splitlinesAux_other c u acc hc.1 hc.2]
      rw [ih (fun d hd => hu d (by simp [hd])) (c :: acc)]
      simp

theorem splitlines_noTerm (u : List Char)
    (hu : ∀ c ∈ u, c ≠ '\n' ∧ c ≠ '\r') (hne : u ≠ []) :
    splitlines u = [u] := by
  unfold splitlines
  rw [splitlinesAux_noTerm u hu []]
  simp [hne]

theorem splitlinesAux_append_lf (v : List Char) (u : List Char)
    (hu : ∀ c ∈ u, c ≠ '\n' ∧ c ≠ '\r') :
    ∀ acc, splitlinesAux (u ++ '\n' :: v) acc =
      (acc.reverse ++ u) :: splitlines v := by
  induction u with
  | nil =>
      intro acc
      rw [List.nil_append, splitlinesAux_lf]
      simp [splitlines]
  | cons c u ih =>
      intro acc
      have hc := hu c (by simp)
      rw [List.cons_append, splitlinesAux_other c _ acc hc.1 hc.2]
      rw [ih (fun d hd => hu d (by simp [hd])) (c :: acc)]
      simp

theorem firstPart_noTerm (u : List Char)
    (hu : ∀ c ∈ u, c ≠ '\n' ∧ c ≠ '\r') (hne : u ≠ [])
    (hstrip : stripList u = u) :
    firstPart u = u := by
  unfold firstPart nonblankParts
  rw [splitlines_noTerm u hu hne]
  simp [hstrip, hne]

theorem firstPart_append_lf (u v : List Char)
    (hu : ∀ c ∈ u, c ≠ '\n' ∧ c ≠ '\r') (hne : u ≠ [])
    (hstrip : stripList u = u) :
    firstPart (u ++ '\n' :: v) = u := by
  unfold firstPart nonblankParts
  unfold splitlines
  rw [splitlinesAux_append_lf v u hu []]
  simp [hstrip, hne]

theorem normalize_keeps_first_line (a b : String)
    (hterm : ∀ c ∈ a.data, c ≠ '\n' ∧ c ≠ '\r')
    (hstrip : stripList a.data = a.data)
    (hne : a.data ≠ []) :
    normalize_contact_name (a ++ "\n" ++ b) = normalize_contact_name a := by
  have hdata : (a ++ "\n" ++ b).data = a.data ++ '\n' :: b.data := by
    simp
  obtain ⟨c, t, hct⟩ : ∃ c t, a.data = c :: t := by
    cases hx : a.data with
    | nil => exact absurd hx hne
    | cons c t => exact ⟨c, t, rfl⟩
  have hstrip2 : stripList (c :: t) = c :: t := by rw [← hct]; exact hstrip
  have hhead : ¬ (isSpaceChar c = true) := head_not_space_of_strip_eq hstrip2
  have hfront : (a.data ++ '\n' :: b.data).dropWhile isSpaceChar
      = a.data ++ '\n' :: b.data := by
    rw [hct, List.cons_append, List.dropWhile_cons, if_neg hhead]
  have hrev : (a.data ++ '\n' :: b.data).reverse
      = b.data.reverse ++ '\n' :: a.data.reverse := by
    simp
  by_cases hb : b.data.reverse.dropWhile isSpaceChar = []
  · have hstripcat : stripList (a.data ++ '\n' :: b.data) = a.data := by
      rw [stripList_eq_rdrop, hfront]
      unfold List.rdropWhile
      rw [hrev, dropWhile_append_of_nil hb, List.dropWhile_cons]
      rw [if_pos (by decide), reverse_dropWhile_eq_self_of_strip_eq hstrip]
      simp
    unfold normalize_contact_name
    rw [hdata, hstripcat, hstrip]
  · have hstripcat : stripList (a.data ++ '\n' :: b.data)
        = a.data ++ '\n' :: (b.data.rdropWhile isSpaceChar) := by
      rw [stripList_eq_rdrop, hfront]
      unfold List.rdropWhile
      rw [hrev, dropWhile_append_of_ne hb]
      simp [List.append_assoc]
    unfold normalize_contact_name
    rw [hdata, hstripcat, hstrip]
    have hg1 : a.data ++ '\n' :: (b.data.rdropWhile isSpaceChar) ≠ [] := by
      rw [hct]; simp
    rw [if_neg hg1, if_neg hne]
    rw [firstPart_append_lf a.data _ hterm hne hstrip,
        firstPart_noTerm a.data hterm hne hstrip]

/-- Claim C6 (amended): normalisation first keeps only the first non-blank
line of the display name; on that line it collapses whitespace runs to
single spaces and strips one trailing unread-count/new-message suffix.  In
particular `"Alice\n3条新消息"` normalises to `"Alice"`; lines after the
first are discarded wholesale, not merely the suffix. -/
theorem c6_theorem :
    (∀ a b : String, (∀ c ∈ a.data, c ≠ '\n' ∧ c ≠ '\r') →
      stripList a.data = a.data → a.data ≠ [] →
      normalize_contact_name (a ++ "\n" ++ b) = normalize_contact_name a) ∧
    normalize_contact_name "Alice\n3条新消息" = "Alice" ∧
    normalize_contact_name "A  B 12条新消息" = "A B" ∧
    normalize_contact_name "Bob未读" = "Bob" := by
  exact ⟨normalize_keeps_first_line, by decide, by decide, by decide⟩

/-- Concrete instantiation of the hypotheses of `c6_theorem`: the first-line
rule applied at `a = "Alice"`, `b = "3条新消息"`. -/
theorem c6_witness :
    normalize_contact_name ("Alice" ++ "\n" ++ "3条新消息") =
      normalize_contact_name "Alice" := by
  exact c6_theorem.1 "Alice" "3条新消息" (by decide) (by decide) (by decide)

/-- Shallow model of the message dictionary built by
`_extract_message_from_item` and enriched by `extract_latest_messages`:
keys `contact`, `type`, `content`, `timestamp`, `ui_id`, plus `is_self`
(attached during the extraction pass) and `trigger_reply` (attached to at
most the final message).  Python reads the last two with
`msg.get('is_self', False)` / `msg.get('trigger_reply')`, so an absent key
behaves as `False`; the field defaults model that. -/
structure BridgeMsg where
  contact : String
  type : String
  content : String
  timestamp : String
  ui_id : Option String
  is_self : Bool := false
  trigger_reply : Bool := false
deriving DecidableEq

/-- Match of `re.fullmatch(r"\d{1,2}:\d{2}", s)`: one or two digits, a
colon, exactly two digits. -/
def isClockText (cs : List Char) : Bool :=
  match cs with
  | [a, ':', b1, b2] => isDigitChar a && isDigitChar b1 && isDigitChar b2
  | [a1, a2, ':', b1, b2] =>
      isDigitChar a1 && isDigitChar a2 && isDigitChar b1 && isDigitChar b2
  | _ => false

/-- Match of `re.fullmatch(r"(\d{1,2}:\d{2}|昨天.*|星期.*|202\d年.*)", s)`:
a clock time, or one of the date prefixes 昨天 / 星期 / 202x年 followed by
arbitrary characters other than a line feed (regex `.` does not match
`\n`). -/
def isTimeOrDateText (cs : List Char) : Bool :=
  isClockText cs ||
  (match cs with
   | '昨' :: '天' :: rest => rest.all (fun c => c ≠ '\n')
   | '星' :: '期' :: rest => rest.all (fun c => c ≠ '\n')
   | '2' :: '0' :: '2' :: d :: '年' :: rest =>
       isDigitChar d && rest.all (fun c => c ≠ '\n')
   | _ => false)

/-- Translation of `WeChatUI._extract_message_from_item` (wechat_bridge.py
1248-1271).  `now` stands for the `_now_iso()` wall-clock reading.  Items
whose stripped name fully matches the timestamp/date pattern are rejected;
a `ChatTextItemView` item with a non-empty name yields that name as the
content; otherwise the first descendant within depth 5 whose stripped name
is non-empty and not a clock time yields its name. -/
def extract_message_from_item (contact_hint now : String) (item : UINode) :
    Option BridgeMsg :=
  let raw_name := stripList item.name.data
  if isTimeOrDateText raw_name then none
  else if substrListAux "ChatTextItemView".data item.className.data
      && decide (raw_name ≠ []) then
    some { contact := contact_hint, type := "text",
           content := String.mk raw_name, timestamp := now, ui_id := item.uiId }
  else
    (iterDescendants item 5).findSome? fun ctrl =>
      let name := stripList ctrl.name.data
      if decide (name ≠ []) && !(isClockText name) then
        some { contact := contact_hint, type := "text",
               content := String.mk name, timestamp := now, ui_id := item.uiId }
      else none

/-- Tail marking step of `extract_latest_messages` (wechat_bridge.py
1241-1244): the chronologically last collected message gains
`trigger_reply = true` exactly when it is not self-authored. -/
def markTriggerReply (ms : List BridgeMsg) : List BridgeMsg :=
  match ms.getLast? with
  | none => ms
  | some last =>
    if last.is_self then ms
    else ms.dropLast ++ [{ last with trigger_reply := true }]

/-- Translation of the collection phase of
`WeChatUI.extract_latest_messages` (wechat_bridge.py 1222-1246), starting
from the already-located message-list children `items`.  Window and list
lookup and contact normalisation happen upstream; the screenshot-based
direction heuristic `_analyze_item_alignment` is the oracle `align`
(`align item = true` models a `"self"` classification).  The last
`max(5, message_scan_limit)` items are extracted, `is_self` is attached to
each message, and the final message is marked via `markTriggerReply`. -/
def extract_latest_messages (contact now : String) (align : UINode → Bool)
    (scanLimit : Int) (items : List UINode) : List BridgeMsg :=
  let limit := (max 5 scanLimit).toNat
  let collected := (items.drop (items.length - limit)).filterMap fun item =>
    (extract_message_from_item contact now item).map fun msg =>
      { msg with is_self := align item }
  markTriggerReply collected

theorem findSome?_eq_some_imp {α β : Type} (l : List α) (f : α → Option β)
    (b : β) (h : l.findSome? f = some b) : ∃ a ∈ l, f a = some b := by
  induction l with
  | nil => simp [List.findSome?] at h
  | cons x xs ih =>
      rw [List.findSome?_cons] at h
      cases hx : f x with
      | some y =>
          rw [hx] at h
          simp at h
          exact ⟨x, by simp, by rw [hx, h]⟩
      | none =>
          rw [hx] at h
          simp only at h
          obtain ⟨a, ha, hfa⟩ := ih h
          exact ⟨a, by simp [ha], hfa⟩

theorem extract_message_props (hint now : String) (item : UINode)
    (m : BridgeMsg) (h : extract_message_from_item hint now item = some m) :
    m.content ≠ "" ∧ isClockText m.content.data = false ∧ m.type = "text" ∧
    m.contact = hint ∧ m.timestamp = now ∧ m.trigger_reply = false ∧
    m.is_self = false := by
  unfold extract_message_from_item at h
  by_cases h1 : isTimeOrDateText (stripList item.name.data)
  · simp [h1] at h
  · rw [if_neg h1] at h
    by_cases h2 : (substrListAux "ChatTextItemView".data item.className.data
        && decide (stripList item.name.data ≠ [])) = true
    · rw [if_pos h2] at h
      obtain ⟨hsub, hne⟩ := Bool.and_eq_true_iff.mp h2
      have hm := (Option.some.injEq _ _).mp h
      subst hm
      have hraw : stripList item.name.data ≠ [] := of_decide_eq_true hne
      have hclock : isClockText (stripList item.name.data) = false := by
        cases hc : isClockText (stripList item.name.data) with
        | false => rfl
        | true =>
            refine absurd ?_ h1
            unfold isTimeOrDateText
            rw [hc]
            simp
      refine ⟨?_, ?_, rfl, rfl, rfl, rfl, rfl⟩
      · intro hcon
        exact hraw (congrArg String.data hcon)
      · exact hclock
    · rw [if_neg h2] at h
      obtain ⟨ctrl, _, hf⟩ := findSome?_eq_some_imp _ _ _ h
      by_cases hc : (decide (stripList ctrl.name.data ≠ [])
          && !(isClockText (stripList ctrl.name.data))) = true
      · rw [if_pos hc] at hf
        obtain ⟨hne, hnc⟩ := Bool.and_eq_true_iff.mp hc
        have hm := (Option.some.injEq _ _).mp hf
        subst hm
        refine ⟨?_, ?_, rfl, rfl, rfl, rfl, rfl⟩
        · intro hcon
          exact (of_decide_eq_true hne) (congrArg String.data hcon)
        · simpa using hnc
      · rw [if_neg hc] at hf
        exact absurd hf (by simp)

theorem extract_message_of_timestamp (hint now : String) (item : UINode)
    (h : isTimeOrDateText (stripList item.name.data) = true) :
    extract_message_from_item hint now item = none := by
  unfold extract_message_from_item
  simp [h]

theorem markTriggerReply_spec (ms : List BridgeMsg)
    (hall : ∀ m ∈ ms, m.trigger_reply = false) :
    ((markTriggerReply ms).filter (fun m => m.trigger_reply)).length ≤ 1 ∧
    (∀ m ∈ (markTriggerReply ms).dropLast, m.trigger_reply = false) ∧
    (∀ last, (markTriggerReply ms).getLast? = some last →
      (last.trigger_reply = true ↔ last.is_self = false)) := by
  unfold markTriggerReply
  cases hL : ms.getLast? with
  | none =>
      have hnil : ms = [] := by simpa using hL
      subst hnil
      simp
  | some last =>
      dsimp only
      have hmem : last ∈ ms := by
        obtain ⟨hne, heq⟩ := List.mem_getLast?_eq_getLast
          (l := ms) (x := last) (by simp [hL, Option.mem_def])
        rw [heq]
        exact List.getLast_mem hne
      by_cases hs : last.is_self = true
      · rw [if_pos hs]
        have hfilter : ms.filter (fun m => m.trigger_reply) = [] := by
          rw [List.filter_eq_nil_iff]
          intro m hm
          simp [hall m hm]
        refine ⟨by simp [hfilter], ?_, ?_⟩
        · intro m hm
          exact hall m (List.dropLast_subset ms hm)
        · intro l hl
          rw [hL] at hl
          have : last = l := by injection hl
          subst this
          constructor
          · intro ht
            exact absurd ht (by simp [hall last hmem])
          · intro hns
            exact absurd hs (by simp [hns])
      · rw [if_neg hs]
        have hfilterd : ms.dropLast.filter (fun m => m.trigger_reply) = [] := by
          rw [List.filter_eq_nil_iff]
          intro m hm
          simp [hall m (List.dropLast_subset ms hm)]
        refine ⟨?_, ?_, ?_⟩
        · rw [List.filter_append, hfilterd]
          simp
        · intro m hm
          rw [List.dropLast_concat] at hm
          exact hall m (List.dropLast_subset ms hm)
        · intro l hl
          rw [List.getLast?_concat] at hl
          have : { last with trigger_reply := true } = l := by injection hl
          subst this
          simp
          exact Bool.eq_false_iff.mpr hs

/-- Claim C2: in every extraction pass at most one message carries
`trigger_reply = true`; every non-final message carries false; and the
final message carries true exactly when it is classified as not
self-authored (so a self-authored final message leaves the pass with no
trigger at all). -/
theorem c2_theorem (contact now : String) (align : UINode → Bool)
    (scanLimit : Int) (items : List UINode) :
    ((extract_latest_messages contact now align scanLimit items).filter
        (fun m => m.trigger_reply)).length ≤ 1 ∧
    (∀ m ∈ (extract_latest_messages contact now align scanLimit items).dropLast,
      m.trigger_reply = false) ∧
    (∀ last, (extract_latest_messages contact now align scanLimit
        items).getLast? = some last →
      (last.trigger_reply = true ↔ last.is_self = false)) := by
  have hall : ∀ m ∈ (items.drop (items.length - (max 5 scanLimit).toNat)).filterMap
      (fun item => (extract_message_from_item contact now item).map
        (fun msg => { msg with is_self := align item })),
      m.trigger_reply = false := by
    intro m hm
    rw [List.mem_filterMap] at hm
    obtain ⟨item, _, hf⟩ := hm
    cases hx : extract_message_from_item contact now item with
    | none => rw [hx] at hf; simp at hf
    | some msg =>
        rw [hx] at hf
        simp at hf
        have hp := (extract_message_props contact now item msg hx).2.2.2.2.2.1
        rw [← hf]
        simpa using hp
  exact markTriggerReply_spec _ hall

/-- Instantiation of `c2_theorem` on a one-item message list classified as
other-authored: the bound holds and the extracted final message satisfies
the trigger equivalence. -/
theorem c2_witness :
    ((extract_latest_messages "A" "t0" (fun _ => false) 10
        [UINode.mk "hi" "mmui::ChatTextItemView" none []]).filter
        (fun m => m.trigger_reply)).length ≤ 1 ∧
    (({ contact := "A", type := "text", content := "hi", timestamp := "t0",
        ui_id := none, is_self := false, trigger_reply := true } :
        BridgeMsg).trigger_reply = true ↔
      ({ contact := "A", type := "text", content := "hi", timestamp := "t0",
          ui_id := none, is_self := false, trigger_reply := true } :
          BridgeMsg).is_self = false) := by
  constructor
  · exact ( c2_theorem "A" "t0" (fun _ => false) 10
      [UINode.mk "hi" "mmui::ChatTextItemView" none []]).1
  · exact ( c2_theorem "A" "t0" (fun _ => false) 10
      [UINode.mk "hi" "mmui::ChatTextItemView" none []]).2.2 _ (by decide)

/-- Claim C10: every message produced by the item extractor has non-empty
content that is not a pure hh:mm clock text, carries type `"text"` and the
supplied contact hint; an item whose stripped display name fully matches
the timestamp/date pattern yields no message. -/
theorem c10_theorem :
    (∀ (hint now : String) (item : UINode) (m : BridgeMsg),
      extract_message_from_item hint now item = some m →
      m.content ≠ "" ∧ isClockText m.content.data = false ∧
      m.type = "text" ∧ m.contact = hint) ∧
    (∀ (hint now : String) (item : UINode),
      isTimeOrDateText (stripList item.name.data) = true →
      extract_message_from_item hint now item = none) := by
  constructor
  · intro hint now item m h
    have hp := extract_message_props hint now item m h
    exact ⟨hp.1, hp.2.1, hp.2.2.1, hp.2.2.2.1⟩
  · exact extract_message_of_timestamp

/-- Instantiation of `c10_theorem`: a concrete `ChatTextItemView` item
yields a well-formed message, and a concrete clock-named item yields
nothing. -/
theorem c10_witness :
    (({ contact := "A", type := "text", content := "hi", timestamp := "t0",
        ui_id := some "7" } : BridgeMsg).content ≠ "" ∧
      isClockText ({ contact := "A", type := "text", content := "hi", timestamp := "t0", ui_id := some "7" } : BridgeMsg).content.data = false ∧
      ({ contact := "A", type := "text", content := "hi", timestamp := "t0",
          ui_id := some "7" } : BridgeMsg).type = "text" ∧
      ({ contact := "A", type := "text", content := "hi", timestamp := "t0",
          ui_id := some "7" } : BridgeMsg).contact = "A") ∧
    extract_message_from_item "A" "t0" (UINode.mk "08:18" "" none []) = none := by
  constructor
  · exact c10_theorem.1 "A" "t0"
      (UINode.mk " hi " "mmui::ChatTextItemView" (some "7") []) _ (by decide)
  · exact c10_theorem.2 "A" "t0" (UINode.mk "08:18" "" none []) (by decide)

/-- Claim C8: the descendant walk enumerates exactly the breadth-first
levels 1..maxDepth (hence visits in breadth-first order, yields no node
deeper than the bound, and is a terminating total function), and a
nonpositive bound yields nothing. -/
theorem c8_theorem :
    (∀ (root : UINode) (maxDepth : Int),
      iterDescendants root maxDepth = bfsUpTo root maxDepth.toNat) ∧
    (∀ (root : UINode) (maxDepth : Int), maxDepth ≤ 0 →
      iterDescendants root maxDepth = []) := by
  refine ⟨iterDescendants_eq_bfsUpTo, fun root maxDepth h => ?_⟩
  unfold iterDescendants
  rw [if_pos h]

/-- Instantiation of `c8_theorem`: a negative bound on a concrete node
yields the empty enumeration. -/
theorem c8_witness :
    iterDescendants (UINode.mk "r" "" none [UINode.mk "x" "" none []]) (-1)
      = [] :=
  c8_theorem.2 (UINode.mk "r" "" none [UINode.mk "x" "" none []]) (-1)
    (by decide)

/-- Hex digest of `hashlib.sha1(text)`, modelled as an injective
fingerprint of the hashed text: the deduplication logic uses signatures
only through equality, and distinct inputs are taken collision-free. -/
structure Sha1Digest where
  ofText : String
deriving DecidableEq

/-- Model of `_sha1_text` (wechat_bridge.py 304-305). -/
def sha1_text (s : String) : Sha1Digest := ⟨s⟩

/-- Python `f"...{b}"` rendering of a Boolean. -/
def pyBoolStr (b : Bool) : String := if b then "True" else "False"

/-- Signature computation of `Listener._fetch_and_report`
(wechat_bridge.py 1463-1467): a message with a truthy `ui_id` (the native
runtime identifier) is fingerprinted from `ui_id|content`, any other from
`contact|content|is_self`. -/
def messageSig (m : BridgeMsg) : Sha1Digest :=
  match m.ui_id with
  | some u =>
      if u ≠ "" then sha1_text (u ++ "|" ++ m.content)
      else sha1_text (m.contact ++ "|" ++ m.content ++ "|" ++ pyBoolStr m.is_self)
  | none => sha1_text (m.contact ++ "|" ++ m.content ++ "|" ++ pyBoolStr m.is_self)

/-- Deduplication step of `Listener._fetch_and_report` (wechat_bridge.py
1469-1474) for one signature: an already-recorded signature is suppressed
(second component false) and leaves the set unchanged; a new signature is
recorded and emitted, and when the set's cardinality then exceeds 2000 the
whole set is cleared at once.  The source stores sha1 hex strings; the
step is stated for any signature type with decidable equality. -/
def dedupStep {α : Type} [DecidableEq α] (seen : Finset α) (sig : α) :
    Finset α × Bool :=
  if sig ∈ seen then (seen, false)
  else if 2000 < (insert sig seen).card then (∅, true)
  else (insert sig seen, true)

theorem dedupStep_mem {α : Type} [DecidableEq α] (s : Finset α) (sig : α)
    (h : sig ∈ s) : dedupStep s sig = (s, false) := by
  unfold dedupStep
  rw [if_pos h]

theorem dedupStep_keep {α : Type} [DecidableEq α] (s : Finset α) (sig : α)
    (h : sig ∉ s) (hc : ¬ 2000 < (insert sig s).card) :
    dedupStep s sig = (insert sig s, true) := by
  unfold dedupStep
  rw [if_neg h, if_neg hc]

theorem dedupStep_clear {α : Type} [DecidableEq α] (s : Finset α) (sig : α)
    (h : sig ∉ s) (hc : 2000 < (insert sig s).card) :
    dedupStep s sig = (∅, true) := by
  unfold dedupStep
  rw [if_neg h, if_pos hc]

/-- Claim C3: a not-yet-recorded signature is emitted and recorded, an
identical later signature is suppressed while the set survives (cardinality
within the bound), the over-2000 overflow clears the set wholesale rather
than evicting entries, and the signature itself hashes `ui_id|content`
when a native identifier is present, else `contact|content|is_self`. -/
theorem c3_theorem :
    (∀ (α : Type) [DecidableEq α] (s : Finset α) (sig : α),
      ((dedupStep s sig).2 = true ↔ sig ∉ s)) ∧
    (∀ (α : Type) [DecidableEq α] (s : Finset α) (sig : α), sig ∈ s →
      dedupStep s sig = (s, false)) ∧
    (∀ (α : Type) [DecidableEq α] (s : Finset α) (sig : α), sig ∉ s →
      (insert sig s).card ≤ 2000 →
      (dedupStep s sig).2 = true ∧ (dedupStep (dedupStep s sig).1 sig).2 = false) ∧
    (∀ (α : Type) [DecidableEq α] (s : Finset α) (sig : α), sig ∉ s →
      2000 < (insert sig s).card → (dedupStep s sig).1 = ∅) ∧
    (∀ (α : Type) [DecidableEq α] (s : Finset α) (sig : α), sig ∉ s →
      (insert sig s).card ≤ 2000 → (dedupStep s sig).1 = insert sig s) ∧
    (∀ (m : BridgeMsg) (u : String), m.ui_id = some u → u ≠ "" →
      messageSig m = sha1_text (u ++ "|" ++ m.content)) ∧
    (∀ m : BridgeMsg, m.ui_id = none →
      messageSig m = sha1_text (m.contact ++ "|" ++ m.content ++ "|" ++
        pyBoolStr m.is_self)) := by
  refine ⟨?_, ?_, ?_, ?_, ?_, ?_, ?_⟩
  · intro α _ s sig
    by_cases h : sig ∈ s
    · rw [dedupStep_mem s sig h]
      simp [h]
    · constructor
      · intro _
        exact h
      · intro _
        by_cases hc : 2000 < (insert sig s).card
        · rw [dedupStep_clear s sig h hc]
        · rw [dedupStep_keep s sig h hc]
  · intro α _ s sig hmem
    exact dedupStep_mem s sig hmem
  · intro α _ s sig hmem hcard
    have hnc : ¬ 2000 < (insert sig s).card := by omega
    rw [dedupStep_keep s sig hmem hnc]
    rw [dedupStep_mem _ sig (Finset.mem_insert_self sig s)]
    exact ⟨rfl, rfl⟩
  · intro α _ s sig hmem hcard
    rw [dedupStep_clear s sig hmem hcard]
  · intro α _ s sig hmem hcard
    have hnc : ¬ 2000 < (insert sig s).card := by omega
    rw [dedupStep_keep s sig hmem hnc]
  · intro m u hu hne
    unfold messageSig
    rw [hu]
    simp [hne]
  · intro m hu
    unfold messageSig
    rw [hu]

/-- Instantiation of `c3_theorem`: on the empty set, signature `5` is
emitted then suppressed; and a concrete message with native id `"7"` and
content `"hi"` hashes `7|hi`. -/
theorem c3_witness :
    ((dedupStep (∅ : Finset Nat) 5).2 = true ∧
      (dedupStep (dedupStep (∅ : Finset Nat) 5).1 5).2 = false) ∧
    messageSig { contact := "A", type := "text", content := "hi", timestamp := "t0", ui_id := some "7" } = sha1_text "7|hi" := by
  constructor
  · exact c3_theorem.2.2.1 Nat ∅ 5 (by simp) (by simp)
  · exact c3_theorem.2.2.2.2.2.1 _ "7" rfl (by decide)

/-- Claim C9: the processed-signature set never exceeds 2000 entries after
a message is processed, and the overflow clear removes every signature
including the one just recorded, so the same signature is emitted again
immediately afterwards. -/
theorem c9_theorem :
    (∀ (α : Type) [DecidableEq α] (s : Finset α) (sig : α),
      s.card ≤ 2000 → (dedupStep s sig).1.card ≤ 2000) ∧
    (∀ (α : Type) [DecidableEq α] (s : Finset α) (sig : α), sig ∉ s →
      2000 < (insert sig s).card →
      (dedupStep s sig).1 = ∅ ∧ (dedupStep (dedupStep s sig).1 sig).2 = true) := by
  constructor
  · intro α _ s sig hcard
    by_cases h : sig ∈ s
    · rw [dedupStep_mem s sig h]
      exact hcard
    · by_cases hc : 2000 < (insert sig s).card
      · rw [dedupStep_clear s sig h hc]
        simp
      · rw [dedupStep_keep s sig h hc]
        dsimp only
        omega
  · intro α _ s sig hmem hcard
    have h1 : (dedupStep s sig).1 = ∅ := by
      rw [dedupStep_clear s sig hmem hcard]
    refine ⟨h1, ?_⟩
    rw [h1]
    have hn : sig ∉ (∅ : Finset α) := by simp
    have hc2 : ¬ 2000 < (insert sig (∅ : Finset α)).card := by simp
    rw [dedupStep_keep ∅ sig hn hc2]

/-- Instantiation of `c9_theorem`: processing a fresh signature on an empty
set keeps the set within the bound, and the 2001st distinct signature
clears the set and would be re-emitted at once. -/
theorem c9_witness :
    (dedupStep (∅ : Finset Nat) 0).1.card ≤ 2000 ∧
    ((dedupStep (Finset.range 2000) 2000).1 = ∅ ∧
      (dedupStep (dedupStep (Finset.range 2000) 2000).1 2000).2 = true) := by
  constructor
  · exact c9_theorem.1 Nat ∅ 0 (by simp)
  · exact c9_theorem.2 Nat (Finset.range 2000) 2000 (by simp)
      (by rw [Finset.card_insert_of_not_mem (by simp), Finset.card_range]; omega)

/-- Success test `200 <= res.status_code < 300` of `JavaClient.post_message`
on one attempt outcome: `Except.ok s` is a completed HTTP round trip with
status `s`, `Except.error` a transport exception (the `except Exception`
arm); only a 2xx status counts as success. -/
def is2xx (r : Except Unit Nat) : Bool :=
  match r with
  | .ok s => decide (200 ≤ s) && decide (s < 300)
  | .error _ => false

/-- Attempt loop of `JavaClient.post_message` (wechat_bridge.py 318-333):
`attempt` is the index of the next attempt and `remaining` the number of
iterations left of `range(java_retry_max + 1)`.  Returns how many attempts
were performed and whether a 2xx response ended the loop.  The
`time.sleep` between attempts only delays; its duration is modelled
separately by `backoffDelay`. -/
def postLoop (resp : Nat → Except Unit Nat) : Nat → Nat → Nat × Bool
  | _, 0 => (0, false)
  | attempt, remaining + 1 =>
    if is2xx (resp attempt) then (1, true)
    else
      let r := postLoop resp (attempt + 1) remaining
      (r.1 + 1, r.2)

/-- Translation of `JavaClient.post_message` (wechat_bridge.py 314-333):
an empty receiver URL returns without any attempt, otherwise at most
`java_retry_max + 1` attempts run; exhausting them drops the message (no
requeue exists in the source). -/
def post_message (url : String) (retryMax : Int)
    (resp : Nat → Except Unit Nat) : Nat × Bool :=
  if url = "" then (0, false) else postLoop resp 0 (retryMax + 1).toNat

/-- Backoff delay slept before retrying after attempt `attempt`
(wechat_bridge.py 332): `base * 2**attempt * jitter` with
`jitter = 0.7 + random.random() * 0.6`. -/
def backoffDelay (base : ℚ) (attempt : Nat) (jitter : ℚ) : ℚ :=
  base * 2 ^ attempt * jitter

theorem postLoop_first_success (resp : Nat → Except Unit Nat) :
    ∀ (k attempt remaining : Nat), k < remaining →
    (∀ j < k, is2xx (resp (attempt + j)) = false) →
    is2xx (resp (attempt + k)) = true →
    postLoop resp attempt remaining = (k + 1, true) := by
  intro k
  induction k with
  | zero =>
      intro attempt remaining hlt _ hk
      cases remaining with
      | zero => omega
      | succ r =>
          unfold postLoop
          rw [show attempt + 0 = attempt from rfl] at hk
          rw [hk]
          simp
  | succ k ih =>
      intro attempt remaining hlt hfail hk
      cases remaining with
      | zero => omega
      | succ r =>
          unfold postLoop
          have h0 : is2xx (resp attempt) = false := by
            have := hfail 0 (by omega)
            simpa using this
          rw [h0]
          have hrec := ih (attempt + 1) r (by omega)
            (fun j hj => by
              have := hfail (j + 1) (by omega)
              rw [show attempt + (j + 1) = attempt + 1 + j by omega] at this
              exact this)
            (by rw [show attempt + 1 + k = attempt + (k + 1) by omega]; exact hk)
          simp [hrec]

theorem postLoop_all_fail (resp : Nat → Except Unit Nat)
    (hfail : ∀ j, is2xx (resp j) = false) :
    ∀ (remaining attempt : Nat), postLoop resp attempt remaining
      = (remaining, false) := by
  intro remaining
  induction remaining with
  | zero => intro attempt; rfl
  | succ r ih =>
      intro attempt
      unfold postLoop
      rw [hfail attempt]
      simp [ih (attempt + 1)]

/-- Claim C5: a first 2xx response at attempt `k` (within the retry budget)
ends the delivery successfully after exactly `k + 1` posts; a receiver
that never answers 2xx consumes `retry_max + 1` attempts and the message
is dropped; the spec's scenario (503, 503, then 200 under
`java_retry_max = 3`) performs exactly 3 attempts and succeeds; and the
backoff delay doubles with each attempt for a fixed jitter draw. -/
theorem c5_theorem :
    (∀ (url : String) (retryMax : Int) (resp : Nat → Except Unit Nat)
      (k : Nat), url ≠ "" → (k : Int) ≤ retryMax →
      (∀ j < k, is2xx (resp j) = false) → is2xx (resp k) = true →
      post_message url retryMax resp = (k + 1, true)) ∧
    (∀ (url : String) (retryMax : Int) (resp : Nat → Except Unit Nat),
      url ≠ "" → (∀ j, is2xx (resp j) = false) →
      post_message url retryMax resp = ((retryMax + 1).toNat, false)) ∧
    (post_message "http://localhost:8080/api/wechat/receive" 3
      (fun k => if k < 2 then Except.ok 503 else Except.ok 200) = (3, true)) ∧
    (∀ (base jitter : ℚ) (attempt : Nat),
      backoffDelay base (attempt + 1) jitter
        = 2 * backoffDelay base attempt jitter) := by
  refine ⟨?_, ?_, ?_, ?_⟩
  · intro url retryMax resp k hurl hk hfail hsucc
    unfold post_message
    rw [if_neg hurl]
    exact postLoop_first_success resp k 0 (retryMax + 1).toNat (by omega)
      (fun j hj => by simpa using hfail j hj) (by simpa using hsucc)
  · intro url retryMax resp hurl hfail
    unfold post_message
    rw [if_neg hurl]
    exact postLoop_all_fail resp hfail (retryMax + 1).toNat 0
  · decide
  · intro base jitter attempt
    unfold backoffDelay
    ring

/-- Instantiation of `c5_theorem`: the 503/503/200 receiver reaches success
on the third attempt via the general first-success law, a permanently
failing transport consumes all four attempts of `retry_max = 3`, and the
delay after the second attempt is twice the delay after the first. -/
theorem c5_witness :
    post_message "u" 3 (fun k => if k < 2 then Except.ok 503 else Except.ok 200)
      = (3, true) ∧
    post_message "u" 3 (fun _ => Except.error ()) = (4, false) ∧
    backoffDelay (3 / 5) 1 1 = 2 * backoffDelay (3 / 5) 0 1 := by
  refine ⟨?_, ?_, ?_⟩
  · exact c5_theorem.1 "u" 3
      (fun k => if k < 2 then Except.ok 503 else Except.ok 200) 2
      (by decide) (by decide) (by decide) (by decide)
  · exact c5_theorem.2.1 "u" 3 (fun _ => Except.error ()) (by decide)
      (fun j => rfl)
  · exact c5_theorem.2.2.2 (3 / 5) 1 0

/-- Numeric value of a digit string, as `int()` computes it. -/
def digitsVal (ds : List Char) : Int :=
  ds.foldl (fun acc c => acc * 10 + ((c.toNat : Int) - ('0'.toNat : Int))) 0

/-- Model of Python `int(text)` applied to the Content-Length header:
optional surrounding whitespace, an optional sign, then one or more ASCII
digits; any other shape raises (`none`) and the caller falls back to `0`.
Underscore digit separators and non-ASCII digits, which `int()` would also
accept, never occur in this header and are left out. -/
def pyParseInt (s : String) : Option Int :=
  match stripList s.data with
  | '-' :: ds =>
      if ds ≠ [] ∧ ds.all isDigitChar then some (-(digitsVal ds)) else none
  | '+' :: ds =>
      if ds ≠ [] ∧ ds.all isDigitChar then some (digitsVal ds) else none
  | ds => if ds ≠ [] ∧ ds.all isDigitChar then some (digitsVal ds) else none

/-- HTTP outcome of the `/command` POST handler: a 400 with its error
token, a 200 `{ok: true, success: b}`, or a 500 `send_failed`. -/
inductive CmdResp where
  | badRequest (err : String)
  | okJson (success : Bool)
  | internalErr
deriving DecidableEq

/-- Exception value crossing an oracle boundary (a raising Python call). -/
structure PyExc where
  msg : String
deriving DecidableEq

/-- JSON object body of a `/command` request after a successful
`json.loads`: the optional `target` and `content` members.  An absent
member behaves as `None`, and the handler's `str(x or "")` turns falsy
values into `""`, so string-or-absent covers the claim's scope (non-object
JSON bodies are outside it). -/
structure CmdBody where
  target : Option String
  content : Option String

/-- Translation of `CommandHandler.do_POST` on path `/command`
(wechat_bridge.py 1575-1601), transport inputs as parameters:
`contentLengthHeader` is `self.headers.get("Content-Length")` (the source
substitutes `"0"` when absent and falls back to length `0` when `int()`
raises), `body` the result of `json.loads` (`none` when it raises), and
`dispatch` the outcome of `ui.set_text_and_send` (`Except.error` when the
dispatcher raises).  Nonpositive length answers 400 `empty_body`, an
unparsable body 400 `invalid_json`, a blank stripped target 400
`target_required` without consulting `dispatch`, a completed dispatch 200,
a raising dispatch 500. -/
def do_POST_command (contentLengthHeader : Option String)
    (body : Option CmdBody) (dispatch : Except PyExc Bool) : CmdResp :=
  let lengthVal := (pyParseInt (contentLengthHeader.getD "0")).getD 0
  if lengthVal ≤ 0 then .badRequest "empty_body"
  else
    match body with
    | none => .badRequest "invalid_json"
    | some data =>
      if pyStrip (data.target.getD "") = "" then .badRequest "target_required"
      else
        match dispatch with
        | .ok b => .okJson b
        | .error _ => .internalErr

/-- Claim C7: a missing or unparsable or nonpositive Content-Length
answers 400 `empty_body`; an unparsable JSON body answers 400
`invalid_json`; a missing or blank-after-trim target answers 400
`target_required` with a response independent of the dispatcher (it is
never invoked); a completed dispatch answers 200 carrying the dispatch
result; a raising dispatcher answers 500.  The spec's scenario
`{"target": "", "content": "hi"}` produces 400 `target_required`. -/
theorem c7_theorem :
    (∀ d : Except PyExc Bool,
      do_POST_command (some "18") (some ⟨some "", some "hi"⟩) d
        = .badRequest "target_required") ∧
    (∀ (body : Option CmdBody) (d : Except PyExc Bool),
      do_POST_command none body d = .badRequest "empty_body") ∧
    (∀ (hdr : Option String) (body : Option CmdBody) (d : Except PyExc Bool),
      pyParseInt (hdr.getD "0") = none →
      do_POST_command hdr body d = .badRequest "empty_body") ∧
    (∀ (hdr : Option String) (d : Except PyExc Bool),
      0 < (pyParseInt (hdr.getD "0")).getD 0 →
      do_POST_command hdr none d = .badRequest "invalid_json") ∧
    (∀ (hdr : Option String) (data : CmdBody) (d d' : Except PyExc Bool),
      pyStrip (data.target.getD "") = "" →
      do_POST_command hdr (some data) d = do_POST_command hdr (some data) d' ∧
      (0 < (pyParseInt (hdr.getD "0")).getD 0 →
        do_POST_command hdr (some data) d = .badRequest "target_required")) ∧
    (∀ (hdr : Option String) (data : CmdBody) (b : Bool),
      0 < (pyParseInt (hdr.getD "0")).getD 0 →
      pyStrip (data.target.getD "") ≠ "" →
      do_POST_command hdr (some data) (.ok b) = .okJson b) ∧
    (∀ (hdr : Option String) (data : CmdBody) (e : PyExc),
      0 < (pyParseInt (hdr.getD "0")).getD 0 →
      pyStrip (data.target.getD "") ≠ "" →
      do_POST_command hdr (some data) (.error e) = .internalErr) := by
  refine ⟨?_, ?_, ?_, ?_, ?_, ?_, ?_⟩
  · intro d
    rfl
  · intro body d
    rfl
  · intro hdr body d hnone
    unfold do_POST_command
    rw [hnone]
    simp
  · intro hdr d hpos
    unfold do_POST_command
    rw [if_neg (by omega)]
  · intro hdr data d d' hblank
    by_cases hlen : (pyParseInt (hdr.getD "0")).getD 0 ≤ 0
    · constructor
      · unfold do_POST_command
        rw [if_pos hlen, if_pos hlen]
      · intro hpos
        omega
    · constructor
      · simp [do_POST_command, hlen, hblank]
      · intro _
        simp [do_POST_command, hlen, hblank]
  · intro hdr data b hpos hne
    unfold do_POST_command
    rw [if_neg (by omega)]
    dsimp only
    rw [if_neg hne]
  · intro hdr data e hpos hne
    unfold do_POST_command
    rw [if_neg (by omega)]
    dsimp only
    rw [if_neg hne]

/-- Instantiation of `c7_theorem` at concrete requests: the blank-target
scenario, a missing header, a garbage header, an unparsable body, and both
dispatch outcomes on a well-formed request. -/
theorem c7_witness :
    do_POST_command (some "18") (some ⟨some "", some "hi"⟩) (.ok true)
      = .badRequest "target_required" ∧
    do_POST_command none (some ⟨some "x", some "hi"⟩) (.ok true)
      = .badRequest "empty_body" ∧
    do_POST_command (some "oops") (some ⟨some "x", some "hi"⟩) (.ok true)
      = .badRequest "empty_body" ∧
    do_POST_command (some "18") none (.ok true) = .badRequest "invalid_json" ∧
    do_POST_command (some "18") (some ⟨some "Alice", some "hi"⟩) (.ok true)
      = .okJson true ∧
    do_POST_command (some "18") (some ⟨some "Alice", some "hi"⟩)
      (.error ⟨"boom"⟩) = .internalErr := by
  refine ⟨?_, ?_, ?_, ?_, ?_, ?_⟩
  · exact c7_theorem.1 (.ok true)
  · exact c7_theorem.2.1 (some ⟨some "x", some "hi"⟩) (.ok true)
  · exact c7_theorem.2.2.1 (some "oops") (some ⟨some "x", some "hi"⟩)
      (.ok true) (by decide)
  · exact c7_theorem.2.2.2.1 (some "18") (.ok true) (by decide)
  · exact c7_theorem.2.2.2.2.2.1 (some "18") ⟨some "Alice", some "hi"⟩ true
      (by decide) (by decide)
  · exact c7_theorem.2.2.2.2.2.2 (some "18") ⟨some "Alice", some "hi"⟩
      ⟨"boom"⟩ (by decide) (by decide)

/-- Outcomes of the external calls `WeChatUI.set_text_and_send`
(wechat_bridge.py 1273-1334) performs, each as an oracle.  Calls whose
bodies the source wraps in `try/except` are total (`Bool`/`Option`-like
results); calls the source leaves unguarded can raise, which `Except.error`
records: `main_window` is `get_main_window()` (its `_log_window_tree` runs
an unguarded property read, ok-true = window found, ok-false = `None`);
`ensure_target` is `ensure_chat_target(target)` (its session-list walk
calls `GetChildren()` unguarded at line 918 and reads name properties via
`getattr`, which only swallows `AttributeError`); `input_rect` is the
unguarded `edit.BoundingRectangle` read inside the debug print at line
1306; `collect_edits` is the `_collect_edit_controls` call in the
missing-input-box diagnostic at line 1302 (unguarded property read at line
1114).  `input_box_found`, `set_edit_ok` and `send_button_found` model the
internally-guarded `find_input_box`, `_set_edit_value` and
`find_send_button`; `click_send` and `send_enter` are the button click and
the `{Enter}` key injection, both wrapped in `try/except` at the call
site. -/
structure SendOps where
  main_window : Except PyExc Bool
  ensure_target : Except PyExc Bool
  input_box_found : Bool
  input_rect : Except PyExc Unit
  collect_edits : Except PyExc Nat
  set_edit_ok : Bool
  send_button_found : Bool
  click_send : Except PyExc Unit
  send_enter : Except PyExc Unit

/-- Translation of `WeChatUI.set_text_and_send` (wechat_bridge.py
1273-1334) over the oracle outcomes: `Except.error` propagates whenever an
unguarded sub-call raises; every handled failure becomes `Except.ok
false`; a clicked send button or a successful Enter fallback becomes
`Except.ok true` (a raising click is caught and falls through to the Enter
path).  `window.SetActive()` is wrapped in a bare `try/except: pass` and
cannot influence the result, so it is not modelled. -/
def set_text_and_send (autoLoaded : Bool) (ops : SendOps) : Except PyExc Bool :=
  if !autoLoaded then .ok false
  else
    match ops.main_window with
    | .error e => .error e
    | .ok false => .ok false
    | .ok true =>
      match ops.ensure_target with
      | .error e => .error e
      | .ok false => .ok false
      | .ok true =>
        if !ops.input_box_found then
          match ops.collect_edits with
          | .error e => .error e
          | .ok _ => .ok false
        else
          match ops.input_rect with
          | .error e => .error e
          | .ok _ =>
            if !ops.set_edit_ok then .ok false
            else if ops.send_button_found then
              match ops.click_send with
              | .ok _ => .ok true
              | .error _ =>
                match ops.send_enter with
                | .ok _ => .ok true
                | .error _ => .ok false
            else
              match ops.send_enter with
              | .ok _ => .ok true
              | .error _ => .ok false

/-- Claim C4 (counterexample): the dispatcher does not convert every
internal failure into a Boolean.  When `ensure_chat_target` raises (its
session-list walk calls `GetChildren()` with no `try/except` at line 918 —
a call the same file guards everywhere else, e.g. lines 438-441 and
617-621, because stale UI elements make it raise), the exception leaves
`set_text_and_send`; the HTTP layer even anticipates this with its own
`try/except` answering 500 (wechat_bridge.py 1595-1601). -/
theorem c4_counterexample :
    set_text_and_send true
      { main_window := .ok true, ensure_target := .error ⟨"COMError"⟩,
        input_box_found := true, input_rect := .ok (),
        collect_edits := .ok 0, set_edit_ok := true,
        send_button_found := true, click_send := .ok (),
        send_enter := .ok () }
      = .error ⟨"COMError"⟩ := by
  rfl

/-- Claim C4 (amended): every handled failure path of the dispatcher
returns false (missing library, missing window, failed chat switch,
missing input box, failed clipboard paste, failure of both send paths),
click-then-Enter fallback and plain Enter return true on success, and the
dispatcher returns a Boolean — never raises — whenever its unguarded
sub-calls (`get_main_window`, `ensure_chat_target`, the debug
`BoundingRectangle` read, the edit-collection diagnostic) complete without
an exception; an exception in one of those propagates past the boundary
(see the counterexample) and is mapped to a 500 by the HTTP layer. -/
theorem c4_theorem :
    (∀ (autoLoaded : Bool) (ops : SendOps) (w t : Bool) (c : Nat),
      ops.main_window = .ok w → ops.ensure_target = .ok t →
      ops.input_rect = .ok () → ops.collect_edits = .ok c →
      ∃ b : Bool, set_text_and_send autoLoaded ops = .ok b) ∧
    (∀ ops : SendOps, set_text_and_send false ops = .ok false) ∧
    (∀ ops : SendOps, ops.main_window = .ok false →
      set_text_and_send true ops = .ok false) ∧
    (∀ ops : SendOps, ops.main_window = .ok true →
      ops.ensure_target = .ok false → set_text_and_send true ops = .ok false) ∧
    (∀ (ops : SendOps) (c : Nat), ops.main_window = .ok true →
      ops.ensure_target = .ok true → ops.input_box_found = false →
      ops.collect_edits = .ok c → set_text_and_send true ops = .ok false) ∧
    (∀ ops : SendOps, ops.main_window = .ok true →
      ops.ensure_target = .ok true → ops.input_box_found = true →
      ops.input_rect = .ok () → ops.set_edit_ok = false →
      set_text_and_send true ops = .ok false) ∧
    (∀ ops : SendOps, ops.main_window = .ok true →
      ops.ensure_target = .ok true → ops.input_box_found = true →
      ops.input_rect = .ok () → ops.set_edit_ok = true →
      ops.send_button_found = true → ops.click_send = .ok () →
      set_text_and_send true ops = .ok true) ∧
    (∀ (ops : SendOps) (e : PyExc), ops.main_window = .ok true →
      ops.ensure_target = .ok true → ops.input_box_found = true →
      ops.input_rect = .ok () → ops.set_edit_ok = true →
      ops.send_button_found = true → ops.click_send = .error e →
      ops.send_enter = .ok () → set_text_and_send true ops = .ok true) ∧
    (∀ (ops : SendOps) (e : PyExc), ops.main_window = .ok true →
      ops.ensure_target = .ok true → ops.input_box_found = true →
      ops.input_rect = .ok () → ops.set_edit_ok = true →
      ops.send_button_found = false → ops.send_enter = .error e →
      set_text_and_send true ops = .ok false) := by
  refine ⟨?_, ?_, ?_, ?_, ?_, ?_, ?_, ?_, ?_⟩
  · intro autoLoaded ops w t c hmw het hir hce
    cases autoLoaded with
    | false => exact ⟨false, rfl⟩
    | true =>
      cases w with
      | false => exact ⟨false, by simp [set_text_and_send, hmw]⟩
      | true =>
        cases t with
        | false => exact ⟨false, by simp [set_text_and_send, hmw, het]⟩
        | true =>
          cases hib : ops.input_box_found with
          | false =>
              exact ⟨false, by simp [set_text_and_send, hmw, het, hib, hce]⟩
          | true =>
              cases hse : ops.set_edit_ok with
              | false =>
                  exact ⟨false, by simp [set_text_and_send, hmw, het, hib, hir, hse]⟩
              | true =>
                  cases hsb : ops.send_button_found with
                  | false =>
                      cases hke : ops.send_enter with
                      | ok u =>
                          exact ⟨true, by simp [set_text_and_send, hmw, het, hib, hir, hse, hsb, hke]⟩
                      | error e =>
                          exact ⟨false, by simp [set_text_and_send, hmw, het, hib, hir, hse, hsb, hke]⟩
                  | true =>
                      cases hck : ops.click_send with
                      | ok u =>
                          exact ⟨true, by simp [set_text_and_send, hmw, het, hib, hir, hse, hsb, hck]⟩
                      | error e =>
                          cases hke : ops.send_enter with
                          | ok u =>
                              exact ⟨true, by simp [set_text_and_send, hmw, het, hib, hir, hse, hsb, hck, hke]⟩
                          | error e2 =>
                              exact ⟨false, by simp [set_text_and_send, hmw, het, hib, hir, hse, hsb, hck, hke]⟩
  · intro ops
    rfl
  · intro ops hmw
    simp [set_text_and_send, hmw]
  · intro ops hmw het
    simp [set_text_and_send, hmw, het]
  · intro ops c hmw het hib hce
    simp [set_text_and_send, hmw, het, hib, hce]
  · intro ops hmw het hib hir hse
    simp [set_text_and_send, hmw, het, hib, hir, hse]
  · intro ops hmw het hib hir hse hsb hck
    simp [set_text_and_send, hmw, het, hib, hir, hse, hsb, hck]
  · intro ops e hmw het hib hir hse hsb hck hke
    simp [set_text_and_send, hmw, het, hib, hir, hse, hsb, hck, hke]
  · intro ops e hmw het hib hir hse hsb hke
    simp [set_text_and_send, hmw, het, hib, hir, hse, hsb, hke]

/-- Concrete oracle record: every external call completes and succeeds. -/
def sendOpsAllOk : SendOps :=
  { main_window := .ok true, ensure_target := .ok true,
    input_box_found := true, input_rect := .ok (),
    collect_edits := .ok 0, set_edit_ok := true,
    send_button_found := true, click_send := .ok (),
    send_enter := .ok () }

/-- Concrete oracle record: the main window is not found. -/
def sendOpsNoWindow : SendOps :=
  { sendOpsAllOk with main_window := .ok false }

/-- Concrete oracle record: the send-button click raises and the Enter
fallback succeeds. -/
def sendOpsClickRaises : SendOps :=
  { sendOpsAllOk with click_send := .error ⟨"click failed"⟩ }

/-- Instantiation of `c4_theorem` at concrete oracle records: completing
sub-calls produce a Boolean, a missing window maps to false, and a raising
click falls back to the Enter path and returns true. -/
theorem c4_witness :
    (∃ b : Bool, set_text_and_send true sendOpsAllOk = .ok b) ∧
    set_text_and_send true sendOpsNoWindow = .ok false ∧
    set_text_and_send true sendOpsClickRaises = .ok true := by
  refine ⟨?_, ?_, ?_⟩
  · exact c4_theorem.1 true sendOpsAllOk true true 0 rfl rfl rfl rfl
  · exact c4_theorem.2.2.1 sendOpsNoWindow rfl
  · exact c4_theorem.2.2.2.2.2.2.2.1 sendOpsClickRaises ⟨"click failed"⟩
      rfl rfl rfl rfl rfl rfl rfl rfl
